import Mathlib

/-!
Verification of the schema-driven entity converter of `toot.asynch.entities`
(`from_dict`, `from_response`, `convert`, `prune_optional`).

The embedding models:
- raw JSON-shaped values (`RawValue`) as decoded from a response body;
- declared field types (`FieldType`), including Python `typing` shapes:
  primitives (`str`, `int`, `bool`, `dict`), `datetime`, `date`,
  `Union[...]` (in particular `Optional[T] = Union[T, NoneType]`),
  `List[T]`, nested dataclasses (`record`, a schema given as an ordered
  field list), and unrecognized types (`other`);
- the converter's outcomes as `Except ConvError TypedValue`, where the
  Python exceptions are abstracted: parsing failures of the temporal
  branches (ValueError/TypeError from `datetime.strptime` and
  `date.fromisoformat`) become `formatError`, iterating a non-iterable or
  calling `.get` on a value without that attribute becomes
  `shapeMismatch`, and the explicit `raise ValueError(f"Not implemented
  for type ...")` becomes `unsupportedType` carrying the offending type.

Python `None` is `RawValue.null`; a dataclass field default that is
declared is `some v`, `dataclasses.MISSING` is `none`.
-/

namespace Entities

/-- A raw JSON-shaped value, as decoded from a response body. -/
inductive RawValue where
  | null : RawValue
  | bool : Bool → RawValue
  | int : Int → RawValue
  | str : String → RawValue
  | arr : List RawValue → RawValue
  | obj : List (String × RawValue) → RawValue

/-- A declared field type (Python type annotation shape).
`record` carries the nested dataclass schema: the ordered list of
(field name, declared type, declared default), where the default is
`none` when the dataclass field has no default (`dataclasses.MISSING`). -/
inductive FieldType where
  | str : FieldType
  | int : FieldType
  | bool : FieldType
  | dict : FieldType
  | datetime : FieldType
  | date : FieldType
  | noneType : FieldType
  | union : List FieldType → FieldType
  | list : FieldType → FieldType
  | record : List (String × FieldType × Option RawValue) → FieldType
  | other : String → FieldType

/-- A schema field: name, declared type, optional declared default. -/
abbrev Field := String × FieldType × Option RawValue

/-- A record schema: the ordered field list of a dataclass. -/
abbrev Schema := List Field

/-- Result of `datetime.strptime(value, "%Y-%m-%dT%H:%M:%S.%f%z")`:
an aware datetime; the fixed-offset timezone is kept as a total offset
in microseconds. -/
structure PyDateTime where
  year : Nat
  month : Nat
  day : Nat
  hour : Nat
  minute : Nat
  second : Nat
  microsecond : Nat
  offsetMicro : Int
  deriving DecidableEq, Repr

/-- Result of `date.fromisoformat`. -/
structure PyDate where
  year : Nat
  month : Nat
  day : Nat
  deriving DecidableEq, Repr

/-- Abstracted error outcomes of the converter (the spec's taxonomy):
`formatError` for temporal parsing failures, `shapeMismatch` for
iterating/attribute errors on values of the wrong runtime shape, and
`unsupportedType` for the explicit "Not implemented for type" raise,
carrying (naming) the offending declared type. -/
inductive ConvError where
  | formatError : ConvError
  | shapeMismatch : ConvError
  | unsupportedType : FieldType → ConvError

/-- A converted, typed value: the absence marker (`Python None`),
primitive passthrough of the raw value, parsed temporals, converted
lists, and dataclass instances (`record`, fields in positional order). -/
inductive TypedValue where
  | none : TypedValue
  | raw : RawValue → TypedValue
  | datetime : PyDateTime → TypedValue
  | date : PyDate → TypedValue
  | list : List TypedValue → TypedValue
  | record : List TypedValue → TypedValue

/-- `prune_optional`: for `Optional[T] = Union[T, NoneType]` (a two-arm
union whose second arm is `NoneType`) returns the encapsulated `T`;
any other type is returned unchanged. -/
def prune_optional (t : FieldType) : FieldType :=
  match t with
  | .union args =>
    match args with
    | [inner, .noneType] => inner
    | _ => .union args
  | _ => t

theorem prune_optional_sizeOf_le (t : FieldType) :
    sizeOf (prune_optional t) ≤ sizeOf t := by
  cases t with
  | union args =>
    unfold prune_optional
    match args with
    | [] => simp
    | [a] => simp
    | [a, b] =>
      cases b <;> simp_arith
    | a :: b :: c :: rest => simp
  | _ => simp [prune_optional]

theorem field_type_sizeOf_lt (f : Field) (fs : Schema) :
    sizeOf f.2.1 < sizeOf (f :: fs) := by
  obtain ⟨n, t, d⟩ := f
  simp
  omega

/-! ### The temporal branch: `datetime.strptime(value, "%Y-%m-%dT%H:%M:%S.%f%z")`

CPython compiles the format into a regex (with `IGNORECASE`) and requires
it to consume the whole string:
`%Y ↦ \d\d\d\d`, `%m ↦ 1[0-2]|0[1-9]|[1-9]`, `%d ↦ 3[01]|[12]\d|0[1-9]|[1-9]`,
`%H ↦ 2[0-3]|[0-1]\d|\d`, `%M ↦ [0-5]\d|\d`, `%S ↦ 6[0-1]|[0-5]\d|\d`,
`%f ↦ \d{1,6}` (right-padded with zeros to microseconds),
`%z ↦ [+-]\d\d:?\d\d(:?\d\d(\.\d{1,6})?)?|Z` (`Z` case-sensitive; the
offset-seconds digits are then accepted only in the forms `±HHMM`,
`±HH:MM`, `±HHMMSS[.f{1,6}]`, `±HH:MM:SS[.f{1,6}]` — the mixed-colon
forms raise), and the literal `T` matches `t` as well. The matched
fields then go through `datetime`/`timezone` construction, which
requires year ≥ 1, a valid calendar day, second ≤ 59 and an offset
strictly smaller than 24 hours in absolute value. -/

/-- Decimal digit test/value of a character. -/
def readDigit (c : Char) : Option Nat :=
  if c = '0' then some 0
  else if c = '1' then some 1
  else if c = '2' then some 2
  else if c = '3' then some 3
  else if c = '4' then some 4
  else if c = '5' then some 5
  else if c = '6' then some 6
  else if c = '7' then some 7
  else if c = '8' then some 8
  else if c = '9' then some 9
  else none

/-- Read exactly two digits (`\d\d`). -/
def read2 (cs : List Char) : Option (Nat × List Char) :=
  match cs with
  | c1 :: c2 :: rest =>
    match readDigit c1, readDigit c2 with
    | some d1, some d2 => some (10 * d1 + d2, rest)
    | _, _ => none
  | _ => none

/-- Read exactly four digits (`\d\d\d\d`, the `%Y` pattern). -/
def read4 (cs : List Char) : Option (Nat × List Char) :=
  match cs with
  | c1 :: c2 :: c3 :: c4 :: rest =>
    match readDigit c1, readDigit c2, readDigit c3, readDigit c4 with
    | some d1, some d2, some d3, some d4 =>
      some (1000 * d1 + 100 * d2 + 10 * d3 + d4, rest)
    | _, _, _, _ => none
  | _ => none

/-- Read a literal character. -/
def readLit (l : Char) (cs : List Char) : Option (List Char) :=
  match cs with
  | c :: rest => if c = l then some rest else none
  | [] => none

/-- Read the literal `T` (the regex is compiled with `IGNORECASE`,
so lowercase `t` matches too). -/
def readT (cs : List Char) : Option (List Char) :=
  match cs with
  | c :: rest => if c = 'T' ∨ c = 't' then some rest else none
  | [] => none

/-- `%m ↦ 1[0-2]|0[1-9]|[1-9]`. When a two-digit alternative fails the
one-digit alternative consumes only the first digit; the leftover digit
then fails the following literal, exactly as the regex does. -/
def readMonth (cs : List Char) : Option (Nat × List Char) :=
  match cs with
  | c1 :: rest1 =>
    match readDigit c1 with
    | none => none
    | some d1 =>
      let single : Option (Nat × List Char) :=
        if 1 ≤ d1 then some (d1, rest1) else none
      match rest1 with
      | c2 :: rest2 =>
        match readDigit c2 with
        | some d2 =>
          if d1 = 1 ∧ d2 ≤ 2 then some (10 + d2, rest2)
          else if d1 = 0 ∧ 1 ≤ d2 then some (d2, rest2)
          else single
        | none => single
      | [] => single
  | [] => none

/-- `%d ↦ 3[01]|[12]\d|0[1-9]|[1-9]`. -/
def readDay (cs : List Char) : Option (Nat × List Char) :=
  match cs with
  | c1 :: rest1 =>
    match readDigit c1 with
    | none => none
    | some d1 =>
      let single : Option (Nat × List Char) :=
        if 1 ≤ d1 then some (d1, rest1) else none
      match rest1 with
      | c2 :: rest2 =>
        match readDigit c2 with
        | some d2 =>
          if d1 = 3 ∧ d2 ≤ 1 then some (30 + d2, rest2)
          else if d1 = 1 ∨ d1 = 2 then some (10 * d1 + d2, rest2)
          else if d1 = 0 ∧ 1 ≤ d2 then some (d2, rest2)
          else single
        | none => single
      | [] => single
  | [] => none

/-- `%H ↦ 2[0-3]|[0-1]\d|\d`. -/
def readHour (cs : List Char) : Option (Nat × List Char) :=
  match cs with
  | c1 :: rest1 =>
    match readDigit c1 with
    | none => none
    | some d1 =>
      match rest1 with
      | c2 :: rest2 =>
        match readDigit c2 with
        | some d2 =>
          if d1 = 2 ∧ d2 ≤ 3 then some (20 + d2, rest2)
          else if d1 ≤ 1 then some (10 * d1 + d2, rest2)
          else some (d1, rest1)
        | none => some (d1, rest1)
      | [] => some (d1, rest1)
  | [] => none

/-- `%M ↦ [0-5]\d|\d`. -/
def readMinute (cs : List Char) : Option (Nat × List Char) :=
  match cs with
  | c1 :: rest1 =>
    match readDigit c1 with
    | none => none
    | some d1 =>
      match rest1 with
      | c2 :: rest2 =>
        match readDigit c2 with
        | some d2 =>
          if d1 ≤ 5 then some (10 * d1 + d2, rest2)
          else some (d1, rest1)
        | none => some (d1, rest1)
      | [] => some (d1, rest1)
  | [] => none

/-- `%S ↦ 6[0-1]|[0-5]\d|\d` (the regex admits leap seconds 60 and 61;
`datetime` construction rejects them later). -/
def readSecond (cs : List Char) : Option (Nat × List Char) :=
  match cs with
  | c1 :: rest1 =>
    match readDigit c1 with
    | none => none
    | some d1 =>
      match rest1 with
      | c2 :: rest2 =>
        match readDigit c2 with
        | some d2 =>
          if d1 = 6 ∧ d2 ≤ 1 then some (60 + d2, rest2)
          else if d1 ≤ 5 then some (10 * d1 + d2, rest2)
          else some (d1, rest1)
        | none => some (d1, rest1)
      | [] => some (d1, rest1)
  | [] => none

/-- Greedily take up to `n` leading digits. -/
def takeDigits (n : Nat) (cs : List Char) : List Nat × List Char :=
  match n, cs with
  | 0, cs => ([], cs)
  | Nat.succ m, c :: rest =>
    match readDigit c with
    | some d =>
      let (ds, left) := takeDigits m rest
      (d :: ds, left)
    | none => ([], c :: rest)
  | Nat.succ _, [] => ([], [])

/-- `%f ↦ \d{1,6}`: one to six digits, right-padded with zeros to a
microsecond count (`int(found.ljust(6, "0"))`). -/
def readFrac (cs : List Char) : Option (Nat × List Char) :=
  match takeDigits 6 cs with
  | ([], _) => none
  | (ds, rest) =>
    some ((ds.foldl (fun a d => 10 * a + d) 0) * 10 ^ (6 - ds.length), rest)

/-- Total offset in microseconds, guarded by `datetime.timezone`'s
requirement that the absolute offset be strictly less than 24 hours. -/
def mkOffset (neg : Bool) (hh mm ss fr : Nat) : Option Int :=
  let total : Int := ((hh * 3600 + mm * 60 + ss) * 1000000 + fr : Nat)
  let signed : Int := if neg then -total else total
  if total < 86400 * 1000000 then some signed else none

/-- `%z`, placed last in the format so it must consume the rest of the
string: `Z` (offset 0) or a sign, two hour digits, optionally `:`,
two minute digits, and optionally seconds (with optional fraction) —
accepted only in the forms `±HHMM`, `±HH:MM`, `±HHMMSS[.f]`,
`±HH:MM:SS[.f]`; the mixed-colon forms match the regex but raise during
offset conversion, so they also fail. -/
def readZone (cs : List Char) : Option Int :=
  if cs = ['Z'] then some 0
  else
    match cs with
    | c :: rest =>
      let neg? : Option Bool :=
        if c = '+' then some false else if c = '-' then some true else none
      match neg? with
      | none => none
      | some neg =>
        match read2 rest with
        | none => none
        | some (hh, rest2) =>
          match rest2 with
          | ':' :: rest3 =>
            match read2 rest3 with
            | none => none
            | some (mm, rest4) =>
              match rest4 with
              | [] => mkOffset neg hh mm 0 0
              | ':' :: rest5 =>
                match read2 rest5 with
                | none => none
                | some (ss, rest6) =>
                  match rest6 with
                  | [] => mkOffset neg hh mm ss 0
                  | '.' :: rest7 =>
                    match readFrac rest7 with
                    | some (fr, []) => mkOffset neg hh mm ss fr
                    | _ => none
                  | _ => none
              | _ => none
          | _ =>
            match read2 rest2 with
            | none => none
            | some (mm, rest4) =>
              match rest4 with
              | [] => mkOffset neg hh mm 0 0
              | ':' :: _ => none
              | '.' :: _ => none
              | _ =>
                match read2 rest4 with
                | none => none
                | some (ss, rest6) =>
                  match rest6 with
                  | [] => mkOffset neg hh mm ss 0
                  | '.' :: rest7 =>
                    match readFrac rest7 with
                    | some (fr, []) => mkOffset neg hh mm ss fr
                    | _ => none
                  | _ => none
    | [] => none

/-- Gregorian leap year. -/
def isLeap (y : Nat) : Bool :=
  (y % 4 = 0 && y % 100 != 0) || y % 400 = 0

/-- Days in a month. -/
def daysInMonth (y m : Nat) : Nat :=
  if m = 2 then (if isLeap y then 29 else 28)
  else if m = 4 ∨ m = 6 ∨ m = 9 ∨ m = 11 then 30
  else 31

/-- `datetime(...)` construction checks on the matched fields: the regex
already bounds month, day, hour and minute, but the year may be 0000,
the day may exceed the month length, and `%S` admits 60/61 which
`datetime` rejects. -/
def mkDatetime (y m d h mi s f : Nat) (off : Int) : Option PyDateTime :=
  if 1 ≤ y ∧ d ≤ daysInMonth y m ∧ s ≤ 59 then
    some ⟨y, m, d, h, mi, s, f, off⟩
  else none

/-- `datetime.strptime(value, "%Y-%m-%dT%H:%M:%S.%f%z")` on the
character list of the input string. -/
def strptimeProfile (cs : List Char) : Option PyDateTime := do
  let (y, r1) ← read4 cs
  let r2 ← readLit '-' r1
  let (m, r3) ← readMonth r2
  let r4 ← readLit '-' r3
  let (d, r5) ← readDay r4
  let r6 ← readT r5
  let (h, r7) ← readHour r6
  let r8 ← readLit ':' r7
  let (mi, r9) ← readMinute r8
  let r10 ← readLit ':' r9
  let (s, r11) ← readSecond r10
  let r12 ← readLit '.' r11
  let (f, r13) ← readFrac r12
  let off ← readZone r13
  mkDatetime y m d h mi s f off

/-- `date.fromisoformat`: exactly `YYYY-MM-DD` with a valid calendar
date. -/
def dateFromIso (cs : List Char) : Option PyDate := do
  let (y, r1) ← read4 cs
  let r2 ← readLit '-' r1
  let (m, r3) ← read2 r2
  let r4 ← readLit '-' r3
  let (d, r5) ← read2 r4
  match r5 with
  | [] =>
    if 1 ≤ y ∧ 1 ≤ m ∧ m ≤ 12 ∧ 1 ≤ d ∧ d ≤ daysInMonth y m then
      some ⟨y, m, d⟩
    else none
  | _ => none

/-! ### Rendering of the spec's strict ISO-8601 profile
`YYYY-MM-DDTHH:MM:SS.ffffff±HH:MM` (zero-padded fixed-width fields),
used to state what the claims call "the fixed ISO-8601 profile". -/

/-- The decimal digit character for a digit value (values above 9 are
clamped; the rendering lemmas only use digit values). -/
def digitChar (n : Nat) : Char :=
  match n with
  | 0 => '0' | 1 => '1' | 2 => '2' | 3 => '3' | 4 => '4'
  | 5 => '5' | 6 => '6' | 7 => '7' | 8 => '8' | _ => '9'

/-- Two-digit zero-padded rendering. -/
def pad2 (n : Nat) : List Char := [digitChar (n / 10), digitChar (n % 10)]

/-- Four-digit zero-padded rendering. -/
def pad4 (n : Nat) : List Char :=
  [digitChar (n / 1000), digitChar (n / 100 % 10), digitChar (n / 10 % 10),
   digitChar (n % 10)]

/-- Six-digit zero-padded rendering (microseconds). -/
def pad6 (n : Nat) : List Char :=
  [digitChar (n / 100000), digitChar (n / 10000 % 10), digitChar (n / 1000 % 10),
   digitChar (n / 100 % 10), digitChar (n / 10 % 10), digitChar (n % 10)]

/-- The numeric UTC offset `±HH:MM` as a signed microsecond count. -/
def strictOffset (plus : Bool) (oh om : Nat) : Int :=
  if plus then ((oh * 3600 + om * 60) * 1000000 : Nat)
  else -((oh * 3600 + om * 60) * 1000000 : Nat)

/-- Characters of the strict profile string
`YYYY-MM-DDTHH:MM:SS.ffffff±HH:MM`. -/
def strictProfileChars (y m d h mi s f : Nat) (plus : Bool) (oh om : Nat) :
    List Char :=
  pad4 y ++ '-' :: (pad2 m ++ '-' :: (pad2 d ++ 'T' :: (pad2 h ++ ':' :: (pad2 mi ++
    ':' :: (pad2 s ++ '.' :: (pad6 f ++ (if plus then '+' else '-') ::
      (pad2 oh ++ ':' :: pad2 om)))))))

/-- The strict profile string itself. -/
def strictProfileString (y m d h mi s f : Nat) (plus : Bool) (oh om : Nat) :
    String :=
  String.mk (strictProfileChars y m d h mi s f plus oh om)

/-- `value is None`. -/
def isNull (v : RawValue) : Bool :=
  match v with
  | .null => true
  | _ => false

/-- The `datetime` branch of `convert`: `datetime.strptime` fails with
`TypeError` on a non-string argument and `ValueError` on a string not
matching the format, both abstracted as `formatError`. -/
def convertDatetime (v : RawValue) : Except ConvError TypedValue :=
  match v with
  | .str s =>
    match strptimeProfile s.data with
    | some dt => .ok (.datetime dt)
    | none => .error .formatError
  | _ => .error .formatError

/-- The `date` branch of `convert`: `date.fromisoformat` likewise. -/
def convertDate (v : RawValue) : Except ConvError TypedValue :=
  match v with
  | .str s =>
    match dateFromIso s.data with
    | some d => .ok (.date d)
    | none => .error .formatError
  | _ => .error .formatError

/-- Python iteration (`for x in value`) over a raw value: lists yield
their elements, strings their characters (as one-character strings),
mappings their keys; numbers, booleans and `None` are not iterable
(`TypeError`, abstracted as `shapeMismatch`). -/
def pyIterate (v : RawValue) : Except ConvError (List RawValue) :=
  match v with
  | .arr xs => .ok xs
  | .str s => .ok (s.data.map (fun c => .str (String.mk [c])))
  | .obj kvs => .ok (kvs.map (fun kv => .str kv.1))
  | _ => .error .shapeMismatch

/-- `data.get(field.name, default)` where `default` is the declared
field default, or `None` (`null`) when the field has none
(`dataclasses.MISSING`). A non-mapping has no `.get` attribute
(`AttributeError`, abstracted as `shapeMismatch`). -/
def getAttr (data : RawValue) (name : String) (default : Option RawValue) :
    Except ConvError RawValue :=
  match data with
  | .obj kvs => .ok (((List.lookup name kvs).or default).getD .null)
  | _ => .error .shapeMismatch

mutual

/-- `convert(field_type, value)`: `None` passes through unconditionally;
primitives pass through unchanged; `datetime`/`date` parse; `List[T]`
iterates the value converting each element; dataclasses re-enter
`from_dict`; anything else raises `ValueError(f"Not implemented for
type '{field_type}'")`, abstracted as `unsupportedType` naming the
type. -/
def convert (t : FieldType) (v : RawValue) : Except ConvError TypedValue :=
  if isNull v then .ok .none
  else
    match t with
    | .str => .ok (.raw v)
    | .int => .ok (.raw v)
    | .bool => .ok (.raw v)
    | .dict => .ok (.raw v)
    | .datetime => convertDatetime v
    | .date => convertDate v
    | .list inner => do
      let xs ← pyIterate v
      let ys ← convertList inner xs
      .ok (.list ys)
    | .record fs => from_dict fs v
    | .noneType => .error (.unsupportedType .noneType)
    | .union args => .error (.unsupportedType (.union args))
    | .other n => .error (.unsupportedType (.other n))
termination_by (sizeOf t, 3)

/-- Elementwise conversion of the list comprehension
`[convert(inner_type, x) for x in value]`, left to right. -/
def convertList (t : FieldType) (xs : List RawValue) :
    Except ConvError (List TypedValue) :=
  match xs with
  | [] => .ok []
  | x :: rest => do
    let y ← convert t x
    let ys ← convertList t rest
    .ok (y :: ys)
termination_by (sizeOf t, 4 + xs.length)

/-- One step of the `_fields()` generator: resolve the raw value via
`data.get(field.name, default)`, prune optionality from the declared
type, and convert. -/
def fieldValue (data : RawValue) (f : Field) : Except ConvError TypedValue := do
  let raw ← getAttr data f.1 f.2.2
  convert (prune_optional f.2.1) raw
termination_by (sizeOf (prune_optional f.2.1) + 1, 4)

/-- The `_fields()` generator consumed in declared field order by
`cls(*_fields())`: computes each field's value left to right, stopping
at the first failure. -/
def buildFields (fs : Schema) (data : RawValue) :
    Except ConvError (List TypedValue) :=
  match fs with
  | [] => .ok []
  | f :: rest => do
    let v ← fieldValue data f
    let vs ← buildFields rest data
    .ok (v :: vs)
termination_by (1 + sizeOf fs, 0)
decreasing_by
· have h1 := prune_optional_sizeOf_le f.2.1
  have h2 : sizeOf f.2.1 < 1 + sizeOf f + sizeOf rest :=
    field_type_sizeOf_lt f rest
  simp_wf
  apply Prod.Lex.left
  omega
· simp_wf
  apply Prod.Lex.left
  omega

/-- `from_dict(cls, data)`: builds the dataclass instance positionally
from the computed field values. -/
def from_dict (fs : Schema) (data : RawValue) : Except ConvError TypedValue := do
  let vs ← buildFields fs data
  .ok (.record vs)
termination_by (1 + sizeOf fs, 1)

end

/-- `value is dict` (the only raw shape with a `.get` attribute). -/
def isObj (v : RawValue) : Bool :=
  match v with
  | .obj _ => true
  | _ => false

/-! ### General lemmas about the converter -/

@[simp] theorem ok_bind {α β ε : Type} (a : α) (g : α → Except ε β) :
    (Except.ok a : Except ε α) >>= g = g a := rfl

@[simp] theorem error_bind {α β ε : Type} (e : ε) (g : α → Except ε β) :
    (Except.error e : Except ε α) >>= g = Except.error e := rfl

theorem convert_null (t : FieldType) : convert t .null = .ok .none := by
  rw [convert.eq_def]
  simp [isNull]

theorem convert_record_eq (fs : Schema) (v : RawValue) (hv : isNull v = false) :
    convert (.record fs) v = from_dict fs v := by
  rw [convert, hv]
  simp

theorem buildFields_nil (d : RawValue) : buildFields [] d = .ok [] := by
  rw [buildFields]

theorem buildFields_cons (f : Field) (rest : Schema) (d : RawValue) :
    buildFields (f :: rest) d =
      (fieldValue d f) >>= (fun v =>
        (buildFields rest d) >>= (fun vs => .ok (v :: vs))) := by
  rw [buildFields]

theorem buildFields_ok_length (fs : Schema) (d : RawValue) (vs : List TypedValue)
    (h : buildFields fs d = .ok vs) : vs.length = fs.length := by
  induction fs generalizing vs with
  | nil =>
    rw [buildFields_nil] at h
    cases h
    rfl
  | cons f rest ih =>
    rw [buildFields_cons] at h
    cases hf : fieldValue d f with
    | error e => rw [hf] at h; simp at h
    | ok v =>
      rw [hf] at h
      simp at h
      cases hb : buildFields rest d with
      | error e => rw [hb] at h; simp at h
      | ok ws =>
        rw [hb] at h
        simp at h
        cases h
        simp [ih ws hb]

theorem buildFields_ok_get (fs : Schema) (d : RawValue) (vs : List TypedValue)
    (h : buildFields fs d = .ok vs) :
    ∀ i (hi : i < fs.length) (hi' : i < vs.length),
      fieldValue d (fs.get ⟨i, hi⟩) = .ok (vs.get ⟨i, hi'⟩) := by
  induction fs generalizing vs with
  | nil =>
    intro i hi
    exact absurd hi (by simp)
  | cons f rest ih =>
    rw [buildFields_cons] at h
    cases hf : fieldValue d f with
    | error e => rw [hf] at h; simp at h
    | ok v =>
      rw [hf] at h
      simp at h
      cases hb : buildFields rest d with
      | error e => rw [hb] at h; simp at h
      | ok ws =>
        rw [hb] at h
        simp at h
        cases h
        intro i hi hi'
        match i with
        | 0 => simpa using hf
        | Nat.succ j =>
          simp only [List.get_cons_succ]
          exact ih ws hb j (by simpa using hi) (by simpa using hi')

theorem buildFields_first_error (fs1 : Schema) (f : Field) (fs2 : Schema)
    (d : RawValue) (e : ConvError)
    (h1 : ∀ g ∈ fs1, ∃ v, fieldValue d g = .ok v)
    (h2 : fieldValue d f = .error e) :
    buildFields (fs1 ++ f :: fs2) d = .error e := by
  induction fs1 with
  | nil =>
    rw [List.nil_append, buildFields_cons, h2]
    rfl
  | cons g rest ih =>
    obtain ⟨v, hv⟩ := h1 g (by simp)
    rw [List.cons_append, buildFields_cons, hv]
    simp [ih (fun g' hg' => h1 g' (by simp [hg']))]

theorem from_dict_of_buildFields (fs : Schema) (d : RawValue) :
    from_dict fs d = (buildFields fs d) >>= (fun vs => .ok (.record vs)) := by
  rw [from_dict]

theorem convertList_nil (t : FieldType) : convertList t [] = .ok [] := by
  rw [convertList]

theorem convertList_cons (t : FieldType) (x : RawValue) (rest : List RawValue) :
    convertList t (x :: rest) =
      (convert t x) >>= (fun y =>
        (convertList t rest) >>= (fun ys => .ok (y :: ys))) := by
  rw [convertList]

theorem convertList_ok (t : FieldType) (xs : List RawValue) (ys : List TypedValue)
    (h : convertList t xs = .ok ys) :
    ys.length = xs.length ∧
      ∀ i (hx : i < xs.length) (hy : i < ys.length),
        convert t (xs.get ⟨i, hx⟩) = .ok (ys.get ⟨i, hy⟩) := by
  induction xs generalizing ys with
  | nil =>
    rw [convertList_nil] at h
    cases h
    exact ⟨rfl, by intro i hx; exact absurd hx (by simp)⟩
  | cons x rest ih =>
    rw [convertList_cons] at h
    cases hx : convert t x with
    | error e => rw [hx] at h; simp at h
    | ok y =>
      rw [hx] at h
      simp at h
      cases hr : convertList t rest with
      | error e => rw [hr] at h; simp at h
      | ok ws =>
        rw [hr] at h
        simp at h
        cases h
        obtain ⟨hlen, hget⟩ := ih ws hr
        refine ⟨by simp [hlen], ?_⟩
        intro i hix hiy
        match i with
        | 0 => simpa using hx
        | Nat.succ j =>
          simp only [List.get_cons_succ]
          exact hget j (by simpa using hix) (by simpa using hiy)

/-! ### Claims -/

/-- C2: for every declared type `t`, `convert t null` is the absence
marker unconditionally; consequently, for a field declared
`Optional[t]` (and no declared default), an absent key and a present
key with a null value both yield the absence marker. -/
theorem C2_null_yields_absence (t : FieldType) (name : String)
    (d : List (String × RawValue)) :
    convert t .null = .ok .none ∧
    (List.lookup name d = Option.none →
      fieldValue (.obj d) (name, .union [t, .noneType], Option.none) = .ok .none) ∧
    (List.lookup name d = some .null →
      fieldValue (.obj d) (name, .union [t, .noneType], Option.none) = .ok .none) := by
  refine ⟨convert_null t, ?_, ?_⟩
  · intro h
    rw [fieldValue]
    simp [getAttr, h, prune_optional, convert_null]
  · intro h
    rw [fieldValue]
    simp [getAttr, h, prune_optional, convert_null]

theorem C2_witness :
    convert .datetime .null = .ok .none ∧
    fieldValue (.obj [("b", .int 1)]) ("a", .union [.datetime, .noneType], Option.none)
      = .ok .none ∧
    fieldValue (.obj [("a", .null)]) ("a", .union [.datetime, .noneType], Option.none)
      = .ok .none :=
  ⟨(C2_null_yields_absence .datetime "a" []).1,
   (C2_null_yields_absence .datetime "a" [("b", .int 1)]).2.1 (by simp [List.lookup]),
   (C2_null_yields_absence .datetime "a" [("a", .null)]).2.2 (by simp [List.lookup])⟩

/-- C9: `prune_optional` maps `Optional[T] = Union[T, NoneType]` to `T`
and leaves every other declared type unchanged. -/
theorem C9_prune_optional_spec (t : FieldType) :
    prune_optional (.union [t, .noneType]) = t ∧
    ((∀ u, t ≠ .union [u, .noneType]) → prune_optional t = t) := by
  constructor
  · rfl
  · intro h
    match t with
    | .str | .int | .bool | .dict | .datetime | .date | .noneType
    | .list _ | .record _ | .other _ => rfl
    | .union args =>
      match args with
      | [] => rfl
      | [a] => rfl
      | [a, b] =>
        cases b with
        | noneType => exact absurd rfl (h a)
        | _ => rfl
      | a :: b :: c :: rest => simp [prune_optional]

theorem C9_witness :
    prune_optional (.union [.datetime, .noneType]) = .datetime ∧
    prune_optional (.list .str) = .list .str :=
  ⟨(C9_prune_optional_spec .datetime).1,
   (C9_prune_optional_spec (.list .str)).2 (fun u => by simp)⟩

/-- C7: a declared type that is not one of the recognized shapes —
`NoneType`, any `Union` that survives optional-pruning (in particular
unions wider than the two-arm optional shape), or any other
unrecognized annotation — makes `convert` fail on every non-null value
with the unsupported-type error naming the offending type. -/
theorem C7_unsupported_type (v : RawValue) (hv : isNull v = false) :
    (∀ name, convert (.other name) v = .error (.unsupportedType (.other name))) ∧
    (∀ args, convert (.union args) v = .error (.unsupportedType (.union args))) ∧
    convert .noneType v = .error (.unsupportedType .noneType) ∧
    (∀ a b c rest,
      prune_optional (.union (a :: b :: c :: rest)) = .union (a :: b :: c :: rest)) := by
  refine ⟨?_, ?_, ?_, ?_⟩
  · intro name
    rw [convert, hv]
    simp
  · intro args
    rw [convert, hv]
    simp
  · rw [convert, hv]
    simp
  · intro a b c rest
    simp [prune_optional]

theorem C7_witness :
    isNull (.int 7) = false ∧
    convert (.other "float") (.int 7) = .error (.unsupportedType (.other "float")) ∧
    convert (.union [.str, .int, .noneType]) (.int 7)
      = .error (.unsupportedType (.union [.str, .int, .noneType])) ∧
    prune_optional (.union [.str, .int, .noneType]) = .union [.str, .int, .noneType] :=
  ⟨rfl,
   (C7_unsupported_type (.int 7) rfl).1 "float",
   (C7_unsupported_type (.int 7) rfl).2.1 [.str, .int, .noneType],
   (C7_unsupported_type (.int 7) rfl).2.2.2 .str .int .noneType []⟩

/-- C5 counterexample: a string-keyed mapping is not an ordered
sequence, yet `convert(Sequence[str], {"a": 1})` does not fail with a
shape mismatch — Python iterates the mapping's keys, so the conversion
succeeds with the list of keys. -/
theorem C5_counterexample :
    convert (.list .str) (.obj [("a", .int 1)]) = .ok (.list [.raw (.str "a")]) := by
  rw [convert]
  simp [isNull, pyIterate, convertList_cons, convertList_nil]
  rw [convert]
  simp [isNull]

/-- C5 amended: a non-null raw value that is not Python-iterable — a
number or a boolean — fails with `shapeMismatch` under `Sequence[T]`;
in particular a field declared `Sequence[str]` with raw value `42`
aborts the build with `shapeMismatch`. (Strings and mappings, however,
are iterable and are consumed elementwise instead of failing.) -/
theorem C5_amended (t : FieldType) :
    (∀ n : Int, convert (.list t) (.int n) = .error .shapeMismatch) ∧
    (∀ b : Bool, convert (.list t) (.bool b) = .error .shapeMismatch) ∧
    from_dict [("xs", .list .str, Option.none)] (.obj [("xs", .int 42)])
      = .error .shapeMismatch := by
  refine ⟨?_, ?_, ?_⟩
  · intro n
    rw [convert]
    simp [isNull, pyIterate]
  · intro b
    rw [convert]
    simp [isNull, pyIterate]
  · rw [from_dict, buildFields_cons, fieldValue]
    simp [getAttr, List.lookup, prune_optional]
    rw [convert]
    simp [isNull, pyIterate]

/-- C6 counterexample: for the empty nested-record schema, a non-mapping
raw value does not fail with a shape mismatch: the builder never reads
the mapping (the field generator yields nothing) and successfully
returns the empty record. -/
theorem C6_counterexample :
    convert (.record []) (.int 42) = .ok (.record []) := by
  rw [convert]
  simp [isNull]
  rw [from_dict, buildFields_nil]
  rfl

/-- C6 amended: `convert(NestedRecord(s), v)` always delegates to the
record builder on non-null `v`; when the schema has at least one field,
a non-mapping value fails with `shapeMismatch` (the per-field
`data.get` access fails); a field-less schema accepts any value. -/
theorem C6_amended (fs : Schema) (f : Field) (v : RawValue)
    (hv : isNull v = false) (hobj : isObj v = false) :
    convert (.record fs) v = from_dict fs v ∧
    convert (.record (f :: fs)) v = .error .shapeMismatch := by
  refine ⟨convert_record_eq fs v hv, ?_⟩
  rw [convert_record_eq _ _ hv, from_dict, buildFields_cons, fieldValue]
  cases v with
  | null => simp [isNull] at hv
  | obj kvs => simp [isObj] at hobj
  | _ => simp [getAttr]

theorem C6_witness :
    isNull (.int 42) = false ∧ isObj (.int 42) = false ∧
    convert (.record [("a", .str, Option.none)]) (.int 42) = .error .shapeMismatch :=
  ⟨rfl, rfl, (C6_amended [] ("a", .str, Option.none) (.int 42) rfl rfl).2⟩

theorem isNull_eq_true (v : RawValue) (h : isNull v = true) : v = .null := by
  cases v <;> simp [isNull] at h ⊢

theorem convertList_total (t : FieldType) (xs : List RawValue)
    (h : ∀ x ∈ xs, isNull x = false → ∃ y, convert t x = .ok y) :
    ∃ ys, convertList t xs = .ok ys := by
  induction xs with
  | nil => exact ⟨[], convertList_nil t⟩
  | cons x rest ih =>
    obtain ⟨ys, hys⟩ := ih (fun x' hx' hn => h x' (by simp [hx']) hn)
    have hx : ∃ y, convert t x = .ok y := by
      cases hnx : isNull x with
      | true => exact ⟨.none, (isNull_eq_true x hnx) ▸ convert_null t⟩
      | false => exact h x (by simp) hnx
    obtain ⟨y, hy⟩ := hx
    refine ⟨y :: ys, ?_⟩
    rw [convertList_cons, hy]
    simp [hys]

/-- C1: the record build is atomic and errors propagate unchanged: a
successful build returns a complete record (one value per schema
field); if some field's value computation fails with `e` (all earlier
fields having succeeded), the whole build fails with exactly `e`; in
particular, when the failing field is a nested record whose inner build
fails, the outer build fails with the inner error unchanged. -/
theorem C1_atomic_error_propagation (fs fs1 fs2 : Schema) (f : Field)
    (d raw : RawValue) (e : ConvError) (inner : Schema) :
    (∀ tv, from_dict fs d = .ok tv →
      ∃ vs, tv = .record vs ∧ vs.length = fs.length) ∧
    ((∀ g ∈ fs1, ∃ v, fieldValue d g = .ok v) → fieldValue d f = .error e →
      from_dict (fs1 ++ f :: fs2) d = .error e) ∧
    ((∀ g ∈ fs1, ∃ v, fieldValue d g = .ok v) →
      prune_optional f.2.1 = .record inner →
      getAttr d f.1 f.2.2 = .ok raw → isNull raw = false →
      from_dict inner raw = .error e →
      from_dict (fs1 ++ f :: fs2) d = .error e) := by
  have propagate : (∀ g ∈ fs1, ∃ v, fieldValue d g = .ok v) →
      fieldValue d f = .error e → from_dict (fs1 ++ f :: fs2) d = .error e := by
    intro h1 h2
    rw [from_dict_of_buildFields, buildFields_first_error fs1 f fs2 d e h1 h2]
    rfl
  refine ⟨?_, propagate, ?_⟩
  · intro tv h
    rw [from_dict_of_buildFields] at h
    cases hb : buildFields fs d with
    | error e' => rw [hb] at h; simp at h
    | ok vs =>
      rw [hb] at h
      simp at h
      exact ⟨vs, h.symm, buildFields_ok_length fs d vs hb⟩
  · intro h1 hp hg hn hi
    refine propagate h1 ?_
    rw [fieldValue, hg]
    simp
    rw [hp, convert_record_eq inner raw hn, hi]

theorem C1_witness :
    from_dict [("x", .record [("t", .datetime, Option.none)], Option.none)]
      (.obj [("x", .obj [("t", .str "nope")])]) = .error .formatError := by
  refine (C1_atomic_error_propagation
    [] [] [] ("x", .record [("t", .datetime, Option.none)], Option.none)
    (.obj [("x", .obj [("t", .str "nope")])]) (.obj [("t", .str "nope")])
    .formatError [("t", .datetime, Option.none)]).2.2
    (by simp) rfl (by simp [getAttr, List.lookup]) rfl ?_
  rw [from_dict, buildFields_cons, fieldValue]
  simp [getAttr, List.lookup, prune_optional]
  rw [convert]
  simp [isNull, convertDatetime]
  rfl

/-- C3: the record builder resolves each field's raw value as: the
mapping's value at the field name if the key is present, else the
declared default if any, else the absence marker — for every declared
type, optional or not — and a successful build holds exactly the
per-field computed values, positionally, in declared field order. -/
theorem C3_resolution_and_positional_order (d : List (String × RawValue))
    (name : String) (t : FieldType) (df : Option RawValue) (v dv : RawValue)
    (fs : Schema) (vs : List TypedValue) :
    (List.lookup name d = some v →
      fieldValue (.obj d) (name, t, df) = convert (prune_optional t) v) ∧
    (List.lookup name d = Option.none → df = some dv →
      fieldValue (.obj d) (name, t, df) = convert (prune_optional t) dv) ∧
    (List.lookup name d = Option.none → df = Option.none →
      fieldValue (.obj d) (name, t, df) = convert (prune_optional t) .null) ∧
    (from_dict fs (.obj d) = .ok (.record vs) →
      vs.length = fs.length ∧
      ∀ i (hi : i < fs.length) (hi' : i < vs.length),
        fieldValue (.obj d) (fs.get ⟨i, hi⟩) = .ok (vs.get ⟨i, hi'⟩)) := by
  refine ⟨?_, ?_, ?_, ?_⟩
  · intro h
    rw [fieldValue]
    simp [getAttr, h, Option.or]
  · intro h hdf
    rw [fieldValue]
    simp [getAttr, h, hdf, Option.or]
  · intro h hdf
    rw [fieldValue]
    simp [getAttr, h, hdf, Option.or]
  · intro h
    rw [from_dict_of_buildFields] at h
    cases hb : buildFields fs (.obj d) with
    | error e' => rw [hb] at h; simp at h
    | ok ws =>
      rw [hb] at h
      simp at h
      cases h
      exact ⟨buildFields_ok_length _ _ _ hb, buildFields_ok_get _ _ _ hb⟩

theorem C3_witness :
    (fieldValue (.obj [("a", .int 5)]) ("a", .str, Option.none)
       = convert (prune_optional .str) (.int 5)) ∧
    (fieldValue (.obj [("b", .int 5)]) ("a", .bool, some (.bool false))
       = convert (prune_optional .bool) (.bool false)) ∧
    (fieldValue (.obj [("b", .int 5)]) ("a", .str, Option.none)
       = convert (prune_optional .str) .null) ∧
    (from_dict [("a", .str, Option.none), ("b", .int, Option.none)]
        (.obj [("a", .str "x"), ("b", .int 3)])
       = .ok (.record [.raw (.str "x"), .raw (.int 3)]) →
      ∀ i (hi : i < 2) (hi' : i < 2),
        fieldValue (.obj [("a", .str "x"), ("b", .int 3)])
            ([("a", .str, Option.none), ("b", .int, Option.none)].get ⟨i, hi⟩)
          = .ok ([TypedValue.raw (.str "x"), TypedValue.raw (.int 3)].get ⟨i, hi'⟩)) :=
  ⟨(C3_resolution_and_positional_order [("a", .int 5)] "a" .str Option.none
      (.int 5) (.int 5) [] []).1 (by simp [List.lookup]),
   (C3_resolution_and_positional_order [("b", .int 5)] "a" .bool
      (some (.bool false)) (.int 5) (.bool false) [] []).2.1
      (by simp [List.lookup]) rfl,
   (C3_resolution_and_positional_order [("b", .int 5)] "a" .str Option.none
      (.int 5) (.int 5) [] []).2.2.1 (by simp [List.lookup]) rfl,
   fun h => ((C3_resolution_and_positional_order
      [("a", .str "x"), ("b", .int 3)] "a" .str Option.none (.int 5) (.int 5)
      [("a", .str, Option.none), ("b", .int, Option.none)]
      [.raw (.str "x"), .raw (.int 3)]).2.2.2 h).2⟩

/-- C8: when `convert(Sequence[T], v)` succeeds on an ordered sequence
`v`, the result is an ordered sequence of the same length whose i-th
element is exactly `convert(T, v[i])`. -/
theorem C8_sequence_preserves_order (t : FieldType) (xs : List RawValue)
    (tv : TypedValue) (h : convert (.list t) (.arr xs) = .ok tv) :
    ∃ ys, tv = .list ys ∧ ys.length = xs.length ∧
      ∀ i (hx : i < xs.length) (hy : i < ys.length),
        convert t (xs.get ⟨i, hx⟩) = .ok (ys.get ⟨i, hy⟩) := by
  rw [convert] at h
  simp [isNull, pyIterate] at h
  cases hc : convertList t xs with
  | error e => rw [hc] at h; simp at h
  | ok ys =>
    rw [hc] at h
    simp at h
    obtain ⟨hlen, hget⟩ := convertList_ok t xs ys hc
    exact ⟨ys, h.symm, hlen, hget⟩

theorem C8_witness :
    ∃ ys, TypedValue.list [.raw (.str "a"), .none] = .list ys ∧
      ys.length = [RawValue.str "a", RawValue.null].length ∧
      ∀ i (hx : i < [RawValue.str "a", RawValue.null].length) (hy : i < ys.length),
        convert .str ([RawValue.str "a", RawValue.null].get ⟨i, hx⟩)
          = .ok (ys.get ⟨i, hy⟩) := by
  refine C8_sequence_preserves_order .str [.str "a", .null]
    (.list [.raw (.str "a"), .none]) ?_
  rw [convert]
  simp [isNull, pyIterate]
  rw [convertList_cons, convert]
  simp [isNull]
  rw [convertList_cons, convert_null]
  simp [convertList_nil]

/-- C10 counterexample: a sequence containing a null element does not
always convert successfully: with inner type `datetime` and the
sequence `[null, "x"]`, the non-null element fails, so the whole
conversion fails with `formatError` (the claim asserts success for
every null-containing sequence). -/
theorem C10_counterexample :
    convert (.list .datetime) (.arr [.null, .str "x"]) = .error .formatError := by
  rw [convert]
  simp [isNull, pyIterate]
  rw [convertList_cons, convert_null]
  simp
  rw [convertList_cons, convert]
  simp [isNull, convertDatetime]
  rfl

/-- C10 amended: for every inner type `T` (optional or not) and every
ordered sequence whose non-null elements all convert successfully, the
whole conversion succeeds, null elements map to the absence marker, and
length and element positions are preserved. -/
theorem C10_amended_null_elements (t : FieldType) (xs : List RawValue)
    (h : ∀ x ∈ xs, isNull x = false → ∃ y, convert t x = .ok y) :
    ∃ ys, convert (.list t) (.arr xs) = .ok (.list ys) ∧
      ys.length = xs.length ∧
      ∀ i (hx : i < xs.length) (hy : i < ys.length),
        (xs.get ⟨i, hx⟩ = .null → ys.get ⟨i, hy⟩ = .none) ∧
        convert t (xs.get ⟨i, hx⟩) = .ok (ys.get ⟨i, hy⟩) := by
  obtain ⟨ys, hys⟩ := convertList_total t xs h
  obtain ⟨hlen, hget⟩ := convertList_ok t xs ys hys
  refine ⟨ys, ?_, hlen, ?_⟩
  · rw [convert]
    simp [isNull, pyIterate]
    rw [hys]
    rfl
  · intro i hx hy
    refine ⟨?_, hget i hx hy⟩
    intro hnull
    have h2 := hget i hx hy
    rw [hnull, convert_null] at h2
    exact (Except.ok.inj h2).symm

theorem C10_amended_witness :
    ∃ ys, convert (.list .datetime) (.arr [.null]) = .ok (.list ys) ∧
      ys.length = [RawValue.null].length ∧
      ∀ i (hx : i < [RawValue.null].length) (hy : i < ys.length),
        ([RawValue.null].get ⟨i, hx⟩ = .null → ys.get ⟨i, hy⟩ = .none) ∧
        convert .datetime ([RawValue.null].get ⟨i, hx⟩) = .ok (ys.get ⟨i, hy⟩) :=
  C10_amended_null_elements .datetime [.null]
    (fun x hx hn => by simp at hx; rw [hx] at hn; simp [isNull] at hn)

/-! ### Parsing the rendered strict profile (for C4) -/

theorem readDigit_digitChar (k : Nat) (h : k ≤ 9) :
    readDigit (digitChar k) = some k := by
  interval_cases k <;> rfl

theorem read2_pad2 (n : Nat) (h : n ≤ 99) (rest : List Char) :
    read2 (pad2 n ++ rest) = some (n, rest) := by
  have h1 := readDigit_digitChar (n / 10) (by omega)
  have h2 := readDigit_digitChar (n % 10) (by omega)
  simp [pad2, read2, h1, h2]
  omega

theorem read2_pad2_nil (n : Nat) (h : n ≤ 99) : read2 (pad2 n) = some (n, []) := by
  have := read2_pad2 n h []
  simpa using this

theorem read4_pad4 (n : Nat) (h : n ≤ 9999) (rest : List Char) :
    read4 (pad4 n ++ rest) = some (n, rest) := by
  have h1 := readDigit_digitChar (n / 1000) (by omega)
  have h2 := readDigit_digitChar (n / 100 % 10) (by omega)
  have h3 := readDigit_digitChar (n / 10 % 10) (by omega)
  have h4 := readDigit_digitChar (n % 10) (by omega)
  simp [pad4, read4, h1, h2, h3, h4]
  omega

theorem readMonth_pad2 (m : Nat) (h1 : 1 ≤ m) (h2 : m ≤ 12) (rest : List Char) :
    readMonth (pad2 m ++ rest) = some (m, rest) := by
  interval_cases m <;> simp [pad2, digitChar, readMonth, readDigit]

theorem readDay_pad2 (d : Nat) (h1 : 1 ≤ d) (h2 : d ≤ 31) (rest : List Char) :
    readDay (pad2 d ++ rest) = some (d, rest) := by
  interval_cases d <;> simp [pad2, digitChar, readDay, readDigit]

theorem readHour_pad2 (h : Nat) (h2 : h ≤ 23) (rest : List Char) :
    readHour (pad2 h ++ rest) = some (h, rest) := by
  interval_cases h <;> simp [pad2, digitChar, readHour, readDigit]

theorem readMinute_pad2 (mi : Nat) (h2 : mi ≤ 59) (rest : List Char) :
    readMinute (pad2 mi ++ rest) = some (mi, rest) := by
  interval_cases mi <;> simp [pad2, digitChar, readMinute, readDigit]

theorem readSecond_pad2 (s : Nat) (h2 : s ≤ 59) (rest : List Char) :
    readSecond (pad2 s ++ rest) = some (s, rest) := by
  interval_cases s <;> simp [pad2, digitChar, readSecond, readDigit]

theorem readFrac_pad6 (f : Nat) (h : f ≤ 999999) (rest : List Char) :
    readFrac (pad6 f ++ rest) = some (f, rest) := by
  have h1 := readDigit_digitChar (f / 100000) (by omega)
  have h2 := readDigit_digitChar (f / 10000 % 10) (by omega)
  have h3 := readDigit_digitChar (f / 1000 % 10) (by omega)
  have h4 := readDigit_digitChar (f / 100 % 10) (by omega)
  have h5 := readDigit_digitChar (f / 10 % 10) (by omega)
  have h6 := readDigit_digitChar (f % 10) (by omega)
  simp [pad6, readFrac, takeDigits, h1, h2, h3, h4, h5, h6]
  omega

theorem readZone_strict (plus : Bool) (oh om : Nat) (hoh : oh ≤ 23) (hom : om ≤ 59) :
    readZone ((if plus then '+' else '-') :: (pad2 oh ++ ':' :: pad2 om)) =
      some (strictOffset plus oh om) := by
  have hmk : mkOffset (!plus) oh om 0 0 = some (strictOffset plus oh om) := by
    rw [mkOffset]
    rw [if_pos (by push_cast; omega)]
    cases plus <;> simp [strictOffset]
  cases plus with
  | true =>
    rw [readZone]
    rw [if_neg (by simp [pad2])]
    simp only []
    rw [read2_pad2 oh (by omega)]
    simp only []
    rw [read2_pad2_nil om (by omega)]
    simpa using hmk
  | false =>
    rw [readZone]
    rw [if_neg (by simp [pad2])]
    simp only []
    rw [read2_pad2 oh (by omega)]
    simp only []
    rw [read2_pad2_nil om (by omega)]
    simpa using hmk

theorem readLit_cons (c : Char) (rest : List Char) :
    readLit c (c :: rest) = some rest := by
  simp [readLit]

theorem readT_cons (rest : List Char) : readT ('T' :: rest) = some rest := by
  simp [readT]

theorem strptimeProfile_strict (y m d h mi s f oh om : Nat) (plus : Bool)
    (hy1 : 1 ≤ y) (hy2 : y ≤ 9999) (hm1 : 1 ≤ m) (hm2 : m ≤ 12)
    (hd1 : 1 ≤ d) (hd2 : d ≤ daysInMonth y m) (hh : h ≤ 23) (hmi : mi ≤ 59)
    (hs : s ≤ 59) (hf : f ≤ 999999) (hoh : oh ≤ 23) (hom : om ≤ 59) :
    strptimeProfile (strictProfileChars y m d h mi s f plus oh om) =
      some ⟨y, m, d, h, mi, s, f, strictOffset plus oh om⟩ := by
  have hd31 : d ≤ 31 := by
    have : daysInMonth y m ≤ 31 := by
      rw [daysInMonth]
      split
      · split <;> omega
      · split <;> omega
    omega
  rw [strictProfileChars, strptimeProfile]
  rw [read4_pad4 y hy2]
  simp only [Option.bind_eq_bind, Option.some_bind]
  rw [readLit_cons]
  simp only [Option.some_bind]
  rw [readMonth_pad2 m hm1 hm2]
  simp only [Option.some_bind]
  rw [readLit_cons]
  simp only [Option.some_bind]
  rw [readDay_pad2 d hd1 hd31]
  simp only [Option.some_bind]
  rw [readT_cons]
  simp only [Option.some_bind]
  rw [readHour_pad2 h hh]
  simp only [Option.some_bind]
  rw [readLit_cons]
  simp only [Option.some_bind]
  rw [readMinute_pad2 mi hmi]
  simp only [Option.some_bind]
  rw [readLit_cons]
  simp only [Option.some_bind]
  rw [readSecond_pad2 s hs]
  simp only [Option.some_bind]
  rw [readLit_cons]
  simp only [Option.some_bind]
  rw [readFrac_pad6 f hf]
  simp only [Option.some_bind]
  rw [readZone_strict plus oh om hoh hom]
  simp only [Option.some_bind]
  rw [mkDatetime, if_pos ⟨hy1, hd2, hs⟩]

/-- C4 counterexample: the string `2020-01-02T03:04:05.123456Z`
deviates from the profile `YYYY-MM-DDTHH:MM:SS.ffffff±HH:MM` (its UTC
offset is `Z`, not numeric `±HH:MM`), yet the conversion succeeds
instead of failing with a format error: the underlying parser is more
lenient than the claimed profile. -/
theorem C4_counterexample :
    convert .datetime (.str "2020-01-02T03:04:05.123456Z") =
      .ok (.datetime ⟨2020, 1, 2, 3, 4, 5, 123456, 0⟩) := by
  simp [convert, isNull, convertDatetime]
  rfl

/-- C4 amended: every string of the strict profile
`YYYY-MM-DDTHH:MM:SS.ffffff±HH:MM` (in-range components, valid
calendar day, offset below 24h) converts successfully to the
corresponding datetime — but the parser also accepts lenient variants
of the profile (such as a `Z` offset, see the counterexample), so the
claimed "succeeds if and only if" holds only in the "if" direction;
every string the parser rejects, e.g. `"not-a-date"`, fails with
`formatError`, and every non-string value also fails with
`formatError` (Python raises `TypeError`). -/
theorem C4_amended_datetime_profile (y m d h mi s f oh om : Nat) (plus : Bool)
    (hy1 : 1 ≤ y) (hy2 : y ≤ 9999) (hm1 : 1 ≤ m) (hm2 : m ≤ 12)
    (hd1 : 1 ≤ d) (hd2 : d ≤ daysInMonth y m) (hh : h ≤ 23) (hmi : mi ≤ 59)
    (hs : s ≤ 59) (hf : f ≤ 999999) (hoh : oh ≤ 23) (hom : om ≤ 59) :
    convert .datetime (.str (strictProfileString y m d h mi s f plus oh om)) =
      .ok (.datetime ⟨y, m, d, h, mi, s, f, strictOffset plus oh om⟩) ∧
    (∀ s' : String, strptimeProfile s'.data = Option.none →
      convert .datetime (.str s') = .error .formatError) ∧
    (∀ n : Int, convert .datetime (.int n) = .error .formatError) ∧
    (∀ b : Bool, convert .datetime (.bool b) = .error .formatError) ∧
    (∀ l, convert .datetime (.arr l) = .error .formatError) ∧
    (∀ kvs, convert .datetime (.obj kvs) = .error .formatError) ∧
    convert .datetime (.str "not-a-date") = .error .formatError := by
  refine ⟨?_, ?_, ?_, ?_, ?_, ?_, ?_⟩
  · rw [convert]
    simp only [isNull]
    rw [convertDatetime]
    simp only [strictProfileString]
    rw [strptimeProfile_strict y m d h mi s f oh om plus
      hy1 hy2 hm1 hm2 hd1 hd2 hh hmi hs hf hoh hom]
    simp
  · intro s' hnone
    rw [convert]
    simp only [isNull]
    rw [convertDatetime, hnone]
    simp
  · intro n
    rw [convert]
    simp [isNull, convertDatetime]
  · intro b
    rw [convert]
    simp [isNull, convertDatetime]
  · intro l
    rw [convert]
    simp [isNull, convertDatetime]
  · intro kvs
    rw [convert]
    simp [isNull, convertDatetime]
  · simp [convert, isNull, convertDatetime]
    rfl

theorem C4_witness :
    convert .datetime (.str (strictProfileString 2020 1 2 3 4 5 123456 true 23 59)) =
      .ok (.datetime ⟨2020, 1, 2, 3, 4, 5, 123456, strictOffset true 23 59⟩) :=
  (C4_amended_datetime_profile 2020 1 2 3 4 5 123456 23 59 true
    (by decide) (by decide) (by decide) (by decide) (by decide) (by decide)
    (by decide) (by decide) (by decide) (by decide) (by decide) (by decide)).1

end Entities
